import Mathlib

/-!
Shallow embedding of the mongowatch change-stream watcher.

The Go sources embedded here:
- event.go: `ChangeStreamEvent`, `ChangeStreamResumePoint`, `ResumeToken`,
  `OperationTypeInvalidate`.
- stream/watcher.go: `getWatchCursor` and `watchChangeStream` (the
  restart/durability protocol) and the `ErrInvalidate` sentinel.
- stream/handlers.go: `GetSaveResumePointFunc` and `GetDeleteResumePointFunc`.
- the checkpoint repository (`ResumeRepository`): `SaveResumePoint`
  (UpdateOne keyed by `_id` with upsert), `DeleteResumePoint` (DeleteOne by
  `_id`), `GetLastResumePoint` (FindOne sorted by timestamp descending).
- stream/doc_processor.go: the per-event dispatcher built in
  `DocumentProcessor.Start`, and the retry supervisor `StartWithRetry`.

Go errors are modelled by an explicit chain type (`GoError`), `fmt.Errorf`
with `%w` by `GoError.wrap`, and `errors.Is` by `GoError.is`.  The change
stream cursor is modelled as the finite list of raw items it delivers before
`Next` returns false, together with the reason iteration ended; the loop
cannot observe that reason (the Go code never calls `cursor.Err()`), which
the model makes explicit.  Stateful collaborators (the checkpoint store and
the dispatch handlers) are modelled as explicit state transformers.
-/

namespace Mongowatch

/-- BSON timestamp (`primitive.Timestamp`): seconds `t` and ordinal `i`.
Both are `uint32` in Go; the code performs no arithmetic on them, only
comparisons, so `Nat` is used. -/
structure Timestamp where
  t : Nat
  i : Nat
  deriving DecidableEq, Repr

/-- Lexicographic strict order on BSON timestamps, used by MongoDB when
sorting on a timestamp field. -/
def Timestamp.lt (a b : Timestamp) : Bool :=
  decide (a.t < b.t) || (decide (a.t = b.t) && decide (a.i < b.i))

/-- Opaque resume token (`ResumeToken` in event.go); its `_data` payload is
an opaque value the code only ever compares for equality, modelled as a
string. -/
structure ResumeToken where
  tokenData : String
  deriving DecidableEq, Repr

/-- Document payload (`primitive.M`).  The watcher treats documents as
opaque: it only stores them and serializes them, so a flat association list
of string fields models the payload. -/
abbrev Doc := List (String × String)

/-- The `updateDescription` sub-document of a change event. -/
structure UpdateDescription where
  updatedFields : List (String × String)
  removedFields : List String
  deriving DecidableEq, Repr

/-- `OperationTypeInvalidate` from event.go. -/
def OperationTypeInvalidate : String := "invalidate"

/-- Normalized change event (`ChangeStreamEvent` in event.go).  `fullDocument`
and `fullDocumentBeforeChange` are nilable maps in Go, hence `Option Doc`. -/
structure ChangeStreamEvent where
  id : ResumeToken
  user : String
  timestamp : Timestamp
  operationType : String
  database : String
  collection : String
  documentKey : String
  fullDocument : Option Doc
  fullDocumentBeforeChange : Option Doc
  updateDescription : UpdateDescription
  deriving DecidableEq, Repr

/-- `ChangeStreamEvent.IsInvalidate` from event.go. -/
def ChangeStreamEvent.isInvalidate (cse : ChangeStreamEvent) : Bool :=
  decide (cse.operationType = OperationTypeInvalidate)

/-- Durable checkpoint record (`ChangeStreamResumePoint` in event.go). -/
structure ChangeStreamResumePoint where
  id : ResumeToken
  timestamp : Timestamp
  fullDocument : Option Doc
  operationType : String
  deriving DecidableEq, Repr

/-- The checkpoint record built from an event by `GetSaveResumePointFunc`
(handlers.go lines 40-45). -/
def deriveResumePoint (cse : ChangeStreamEvent) : ChangeStreamResumePoint :=
  { id := cse.id
    timestamp := cse.timestamp
    fullDocument := cse.fullDocument
    operationType := cse.operationType }

/-- Go error values as the watcher observes them: the `ErrInvalidate`
sentinel (watcher.go line 134), leaf errors (`fmt.Errorf` without `%w`, and
driver errors), and wrapping via `fmt.Errorf` with `%w`. -/
inductive GoError where
  | errInvalidate : GoError
  | mk (msg : String) : GoError
  | wrap (msg : String) (inner : GoError) : GoError
  deriving DecidableEq, Repr, BEq

/-- `errors.Is`: equality at each level of the unwrap chain. -/
def GoError.is (e target : GoError) : Bool :=
  match e with
  | .wrap m inner => (GoError.wrap m inner == target) || GoError.is inner target
  | e' => e' == target

/-- The string produced by the `Error()` method: wrapping with
`fmt.Errorf` prepends the message and a colon. -/
def GoError.message : GoError → String
  | .errInvalidate => "received 'invalidate' event"
  | .mk m => m
  | .wrap m inner => m ++ ": " ++ inner.message

/-- Helper for `strings.Contains`: whether `pat` occurs at the head of `s`. -/
def charsStartWith : List Char → List Char → Bool
  | _, [] => true
  | [], _ :: _ => false
  | a :: as, b :: bs => (a == b) && charsStartWith as bs

/-- Helper for `strings.Contains`: whether `pat` occurs anywhere in `s`. -/
def charsHaveSub : List Char → List Char → Bool
  | [], pat => charsStartWith [] pat
  | a :: as, pat => charsStartWith (a :: as) pat || charsHaveSub as pat

/-- `strings.Contains s pat`. -/
def strContains (s pat : String) : Bool :=
  charsHaveSub s.toList pat.toList

/-- `options.FullDocument` values from the mongo driver. -/
inductive FullDocument where
  | defaultMode
  | off
  | required
  | updateLookup
  | whenAvailable
  deriving DecidableEq, Repr

/-- The change stream options `getWatchCursor` assembles before calling
`col.Watch`: the full-document and pre-image modes and the (mutually
exclusive) resume positions. -/
structure ChangeStreamOptions where
  fullDocument : FullDocument
  fullDocumentBeforeChange : FullDocument
  startAfter : Option ResumeToken
  startAtOperationTime : Option Timestamp
  deriving DecidableEq, Repr

/-- Why cursor iteration ended: `ChangeStream.Next` returns false both when
the context is cancelled and when a non-resumable cursor error occurs; the
distinction is only available through `cursor.Err()`. -/
inductive EndReason where
  | cancelled
  | cursorError
  deriving DecidableEq, Repr

/-- A change stream cursor, modelled as the finite sequence of raw items it
delivers (each either an extracted event or the `bson.Unmarshal` failure
`extractChangeEvent` would produce for it) before `Next` returns false,
plus the reason iteration ended. -/
structure Cursor where
  items : List (Except GoError ChangeStreamEvent)
  endReason : EndReason

/-- The checkpoint collection, as the list of its documents in insertion
order. -/
abbrev Store := List ChangeStreamResumePoint

/-- `ResumeRepository.SaveResumePoint`: `UpdateOne` on `_id = ce.ID` with
`$set` and upsert.  `_id` is the collection's unique key, so at most one
document matches; the first (only) match is replaced, otherwise the record
is inserted. -/
def saveResumePoint : Store → ChangeStreamResumePoint → Store
  | [], p => [p]
  | q :: rest, p => if q.id = p.id then p :: rest else q :: saveResumePoint rest p

/-- `ResumeRepository.DeleteResumePoint`: `DeleteOne` on `_id = token`
(removes the first matching document; a no-op if none matches). -/
def deleteResumePoint : Store → ResumeToken → Store
  | [], _ => []
  | q :: rest, tok => if q.id = tok then rest else q :: deleteResumePoint rest tok

/-- `ResumeRepository.GetLastResumePoint`: `FindOne` sorted by `timestamp`
descending, i.e. a record of maximal timestamp; `none` models
`mongo.ErrNoDocuments`. -/
def getLastResumePoint : Store → Option ChangeStreamResumePoint
  | [] => none
  | q :: rest =>
    some (rest.foldl (fun best r => if Timestamp.lt best.timestamp r.timestamp then r else best) q)

/-- `ChangeEventDispatcherFunc` (`func(ctx, ce, err) error`) over an explicit
state `σ` standing for whatever the function's closure reaches (for the
save/delete funcs of handlers.go, the checkpoint collection). -/
abbrev DFunc (σ : Type) :=
  σ → ChangeStreamEvent → Option GoError → σ × Option GoError

/-- The dispatch chain of watcher.go lines 162-166 and 207-211: each
function receives the error returned by the previous one, and the last
returned error is the chain's result. -/
def runDispatch {σ : Type} :
    List (DFunc σ) → σ → ChangeStreamEvent → Option GoError → σ × Option GoError
  | [], s, _, e => (s, e)
  | f :: rest, s, ce, e =>
    let r := f s ce e
    runDispatch rest r.1 ce r.2

/-- What one iteration of the `watchCursor.Next` loop decides: return from
`watchChangeStream` with the given value, or continue with a new
`previousEvent`. -/
inductive StepOutcome where
  | halt (err : Option GoError)
  | next (prev : ChangeStreamEvent)
  deriving DecidableEq, Repr

/-- The body of the `for watchCursor.Next(ctx)` loop of `watchChangeStream`
(watcher.go lines 143-226) for one delivered item, given the current
`previousEvent` and the state reached so far. -/
def watchStep {σ : Type} (saveFunc deleteFunc : DFunc σ) (dispatchFuncs : List (DFunc σ))
    (resumeToken : Option ChangeStreamResumePoint) (prev : Option ChangeStreamEvent)
    (item : Except GoError ChangeStreamEvent) (s : σ) : σ × StepOutcome :=
  match item with
  | .error e => (s, .halt (some (.wrap "failed to extract change event" e)))
  | .ok changeEvent =>
    if prev = none ∧ resumeToken ≠ none then
      -- first event after a warm resume (watcher.go lines 160-184)
      let r := runDispatch dispatchFuncs s changeEvent none
      match r.2 with
      | some e => (r.1, .halt (some (.wrap "failed to process first event" e)))
      | none =>
        if changeEvent.operationType = OperationTypeInvalidate then
          (r.1, .halt (some .errInvalidate))
        else
          (r.1, .next changeEvent)
    else
      -- normal path (watcher.go lines 186-225)
      let rs := saveFunc s changeEvent none
      match rs.2 with
      | some e => (rs.1, .halt (some (.wrap "failed to save event" e)))
      | none =>
        let rd := match prev with
          | some previousEvent => deleteFunc rs.1 previousEvent none
          | none => (rs.1, none)
        match rd.2 with
        | some e => (rd.1, .halt (some (.wrap "failed to delete event" e)))
        | none =>
          let rp := runDispatch dispatchFuncs rd.1 changeEvent none
          match rp.2 with
          | some e => (rp.1, .halt (some (.wrap "failed to process event" e)))
          | none =>
            if changeEvent.operationType = OperationTypeInvalidate then
              (rp.1, .halt (some .errInvalidate))
            else
              (rp.1, .next changeEvent)

/-- The `for watchCursor.Next(ctx)` loop over the remaining items; when the
items are exhausted (`Next` returned false) the function returns `nil`
(watcher.go line 228). -/
def watchLoop {σ : Type} (saveFunc deleteFunc : DFunc σ) (dispatchFuncs : List (DFunc σ))
    (resumeToken : Option ChangeStreamResumePoint) (prev : Option ChangeStreamEvent)
    (items : List (Except GoError ChangeStreamEvent)) (s : σ) : σ × Option GoError :=
  match items with
  | [] => (s, none)
  | item :: rest =>
    match watchStep saveFunc deleteFunc dispatchFuncs resumeToken prev item s with
    | (s', .halt e) => (s', e)
    | (s', .next p) => watchLoop saveFunc deleteFunc dispatchFuncs resumeToken (some p) rest s'

/-- `watchChangeStream` (watcher.go lines 136-229): `previousEvent` starts
at nil and the loop runs over the cursor's items.  The cursor's end reason
is invisible to it: `Next` only returns false and `cursor.Err()` is never
called. -/
def watchChangeStream {σ : Type} (saveFunc deleteFunc : DFunc σ)
    (dispatchFuncs : List (DFunc σ)) (resumeToken : Option ChangeStreamResumePoint)
    (watchCursor : Cursor) (s : σ) : σ × Option GoError :=
  watchLoop saveFunc deleteFunc dispatchFuncs resumeToken none watchCursor.items s

/-- `GetSaveResumePointFunc` (handlers.go lines 30-53) over the checkpoint
collection, when the underlying `UpdateOne` succeeds: build the record from
the event and upsert it; the incoming error argument is not consulted. -/
def saveFuncRepo : DFunc Store :=
  fun store cse _ => (saveResumePoint store (deriveResumePoint cse), none)

/-- `GetDeleteResumePointFunc` (handlers.go lines 56-72) over the checkpoint
collection, when the underlying `DeleteOne` succeeds: a non-nil incoming
error is returned unchanged without deleting; otherwise the record keyed by
the event's id is deleted. -/
def deleteFuncRepo : DFunc Store :=
  fun store ce err =>
    match err with
    | some e => (store, some e)
    | none => (deleteResumePoint store ce.id, none)

/-- A user dispatch stage that only computes an error from the event and the
prior error, leaving all persistent state untouched (the dispatch handlers
never write to the checkpoint store). -/
def pureDispatch {σ : Type} (df : ChangeStreamEvent → Option GoError → Option GoError) :
    DFunc σ :=
  fun s ce e => (s, df ce e)

/-- The result of threading the prior error through a list of pure dispatch
stages. -/
def chainPure (dfs : List (ChangeStreamEvent → Option GoError → Option GoError))
    (ce : ChangeStreamEvent) (e : Option GoError) : Option GoError :=
  dfs.foldl (fun acc df => df ce acc) e

/-- Observable calls against the checkpoint store and the dispatch pipeline,
recorded as ghost instrumentation to state ordering properties.  The `Bool`
on `save`/`delete` records whether the underlying database call succeeded. -/
inductive StoreOp where
  | save (id : ResumeToken) (ok : Bool)
  | delete (id : ResumeToken) (ok : Bool)
  | dispatch (id : ResumeToken)
  deriving DecidableEq, Repr

/-- State for the instrumented run: the checkpoint collection plus the
ghost call log. -/
structure TracedState where
  store : Store
  log : List StoreOp
  deriving DecidableEq, Repr

/-- `GetSaveResumePointFunc` with ghost logging and database-failure
injection: `saveErr ce` is the error the underlying `UpdateOne` would
return for this event (`none` = success).  On failure the repository wraps
it as `failed to save resume point ...: %w`. -/
def saveFuncTraced (saveErr : ChangeStreamEvent → Option GoError) : DFunc TracedState :=
  fun st cse _ =>
    match saveErr cse with
    | some e =>
      ({ st with log := st.log ++ [.save cse.id false] },
       some (.wrap "failed to save resume point" e))
    | none =>
      ({ store := saveResumePoint st.store (deriveResumePoint cse)
         log := st.log ++ [.save cse.id true] }, none)

/-- `GetDeleteResumePointFunc` with ghost logging and database-failure
injection: a non-nil incoming error is returned unchanged (no call made);
a `DeleteOne` failure is returned unwrapped, as in handlers.go. -/
def deleteFuncTraced (deleteErr : ChangeStreamEvent → Option GoError) : DFunc TracedState :=
  fun st ce err =>
    match err with
    | some e => (st, some e)
    | none =>
      match deleteErr ce with
      | some e => ({ st with log := st.log ++ [.delete ce.id false] }, some e)
      | none =>
        ({ store := deleteResumePoint st.store ce.id
           log := st.log ++ [.delete ce.id true] }, none)

/-- A user dispatch stage with ghost logging: records that the pipeline ran
for the event, then computes its error. -/
def dispatchTraced (df : ChangeStreamEvent → Option GoError → Option GoError) :
    DFunc TracedState :=
  fun st ce e => ({ st with log := st.log ++ [.dispatch ce.id] }, df ce e)

/-- The options `getWatchCursor` builds before the first `col.Watch` call
(watcher.go lines 95-113): full document `UpdateLookup` and pre-image
capture `Required` unconditionally; then, from the resume point: none →
open from now; `invalidate` → `SetStartAfter(id)`; otherwise →
`SetStartAtOperationTime(timestamp)`.  The `fullDocumentMode` parameter of
`getWatchCursor` is only logged, never used, so it does not appear here. -/
def buildWatchOptions (resumePoint : Option ChangeStreamResumePoint) : ChangeStreamOptions :=
  let opts : ChangeStreamOptions :=
    { fullDocument := .updateLookup
      fullDocumentBeforeChange := .required
      startAfter := none
      startAtOperationTime := none }
  match resumePoint with
  | none => opts
  | some rp =>
    if rp.operationType = OperationTypeInvalidate then
      { opts with startAfter := some rp.id }
    else
      { opts with startAtOperationTime := some rp.timestamp }

/-- `getWatchCursor` (watcher.go lines 94-132).  `watchFn` is the external
`col.Watch` collaborator; the returned list records each set of options it
was called with, in order.  A first failure whose message contains
`NoMatchingDocument` is retried exactly once with pre-image capture set to
`Off`; any other failure, or a failure of the retry, is wrapped and
returned. -/
def getWatchCursor (watchFn : ChangeStreamOptions → Except GoError Cursor)
    (_fullDocumentMode : FullDocument) (resumePoint : Option ChangeStreamResumePoint) :
    List ChangeStreamOptions × Except GoError Cursor :=
  match watchFn (buildWatchOptions resumePoint) with
  | .ok watchCursor => ([buildWatchOptions resumePoint], .ok watchCursor)
  | .error e =>
    if strContains e.message "NoMatchingDocument" then
      match watchFn { buildWatchOptions resumePoint with
          fullDocumentBeforeChange := FullDocument.off } with
      | .ok watchCursor =>
        ([buildWatchOptions resumePoint,
          { buildWatchOptions resumePoint with fullDocumentBeforeChange := FullDocument.off }],
         .ok watchCursor)
      | .error e2 =>
        ([buildWatchOptions resumePoint,
          { buildWatchOptions resumePoint with fullDocumentBeforeChange := FullDocument.off }],
         .error (.wrap "failed to watch collection" e2))
    else
      ([buildWatchOptions resumePoint], .error (.wrap "failed to watch collection" e))

/-- A collaborator operation invoked by the document processor's dispatcher
(`CollectionWatcher`: Insert/Update/Delete over a serialized payload). -/
inductive CollabCall where
  | insert (payload : String)
  | update (payload : String)
  | delete (payload : String)
  deriving DecidableEq, Repr

/-- The per-event dispatcher built in `DocumentProcessor.Start`
(doc_processor.go lines 96-135).  `marshal` models `json.Marshal` on a
nilable document; `actions` models the collaborator, giving the error each
call returns.  The result is the list of collaborator calls made (at most
one) and the returned error. -/
def docDispatcherFunc (marshal : Option Doc → Except GoError String)
    (actions : CollabCall → Option GoError) (ce : ChangeStreamEvent) :
    List CollabCall × Option GoError :=
  if ce.operationType = "insert" then
    match marshal ce.fullDocument with
    | .error e => ([], some (.wrap "failed to marshal event stream document" e))
    | .ok docBytes => ([.insert docBytes], actions (.insert docBytes))
  else if ce.operationType = "update" then
    match marshal ce.fullDocument with
    | .error e => ([], some (.wrap "failed to marshal event stream document" e))
    | .ok docBytes => ([.update docBytes], actions (.update docBytes))
  else if ce.operationType = "delete" then
    match ce.fullDocumentBeforeChange with
    | some pre =>
      match marshal (some pre) with
      | .error e => ([], some (.wrap "failed to marshal event stream document before change" e))
      | .ok docBytes => ([.delete docBytes], actions (.delete docBytes))
    | none =>
      match marshal ce.fullDocument with
      | .error e => ([], some (.wrap "failed to marshal event stream document" e))
      | .ok docBytes => ([.delete docBytes], actions (.delete docBytes))
  else
    ([], none)

/-- Actions of the retry supervisor as observed from outside: starting an
attempt (`dp.Start`) and force-stopping the manager (`dp.Stop`). -/
inductive SupAction where
  | start
  | stop
  deriving DecidableEq, Repr

/-- One invocation of the `op` closure of `StartWithRetry`
(doc_processor.go lines 65-78), given the error the underlying `dp.Start`
attempt returns: on an error satisfying `errors.Is(err, ErrInvalidate)` the
manager is stopped before `op` returns; the error is always passed back to
`backoff.Retry`. -/
def startWithRetryOp (attemptErr : Option GoError) : List SupAction × Option GoError :=
  match attemptErr with
  | none => ([.start], none)
  | some e =>
    if e.is .errInvalidate then ([.start, .stop], some e) else ([.start], some e)

/-- `backoff.Retry(op, bo)` around `op`, with the successive attempt
outcomes given as a list (the default backoff policy is unbounded, so an
error always leads to the next attempt): the concatenated supervisor
actions, in order. -/
def startWithRetry : List (Option GoError) → List SupAction
  | [] => []
  | a :: rest =>
    let r := startWithRetryOp a
    match r.2 with
    | none => r.1
    | some _ => r.1 ++ startWithRetry rest

/-- Modelled from the spec: the external change feed source (§4.1, §6),
which is MongoDB itself and not part of this repository.  `allEvents` is
the source's ordered event log.  Opening with `startAfter tok` yields the
events strictly after the event carrying token `tok`; opening with
`startAtOperationTime ts` replays all events with timestamp at least `ts`
(redelivering the checkpointed event); opening with neither starts from
"now", before any future event. -/
def openFeed (allEvents : List ChangeStreamEvent) (opts : ChangeStreamOptions) :
    List ChangeStreamEvent :=
  match opts.startAfter with
  | some tok => (allEvents.dropWhile (fun e => !(e.id == tok))).drop 1
  | none =>
    match opts.startAtOperationTime with
    | some ts => allEvents.filter (fun e => !(Timestamp.lt e.timestamp ts))
    | none => []

/-- A sample insert event, as produced by inserting `test_0` in the tests. -/
def evInsert0 : ChangeStreamEvent :=
  { id := ⟨"token-0"⟩
    user := ""
    timestamp := ⟨1, 0⟩
    operationType := "insert"
    database := "tests"
    collection := "collection_to_watch"
    documentKey := "doc-0"
    fullDocument := some [("name", "test_0")]
    fullDocumentBeforeChange := none
    updateDescription := ⟨[], []⟩ }

/-- A second sample insert event. -/
def evInsert1 : ChangeStreamEvent :=
  { evInsert0 with
    id := ⟨"token-1"⟩
    timestamp := ⟨2, 0⟩
    documentKey := "doc-1"
    fullDocument := some [("name", "test_1")] }

/-- A third sample insert event. -/
def evInsert2 : ChangeStreamEvent :=
  { evInsert0 with
    id := ⟨"token-2"⟩
    timestamp := ⟨3, 0⟩
    documentKey := "doc-2"
    fullDocument := some [("name", "test_2")] }

/-- A sample invalidate event (collection dropped after `test_1`). -/
def evInvalidate3 : ChangeStreamEvent :=
  { evInsert0 with
    id := ⟨"token-3"⟩
    timestamp := ⟨4, 0⟩
    operationType := OperationTypeInvalidate
    documentKey := ""
    fullDocument := none }

/-- A sample insert event delivered after the invalidate event. -/
def evInsert4 : ChangeStreamEvent :=
  { evInsert0 with
    id := ⟨"token-4"⟩
    timestamp := ⟨5, 0⟩
    documentKey := "doc-4"
    fullDocument := some [("name", "test_4")] }

/-- A sample delete event carrying both a pre-image and a post-image. -/
def evDelete5 : ChangeStreamEvent :=
  { evInsert0 with
    id := ⟨"token-5"⟩
    timestamp := ⟨6, 0⟩
    operationType := "delete"
    documentKey := "doc-0"
    fullDocument := none
    fullDocumentBeforeChange := some [("name", "test_0")] }

/-- A `col.Watch` collaborator that rejects pre-image lookup with the
`NoMatchingDocument` condition and succeeds once capture is disabled. -/
def watchFnNoPreImage : ChangeStreamOptions → Except GoError Cursor :=
  fun o =>
    if o.fullDocumentBeforeChange = FullDocument.required then
      .error (.mk "NoMatchingDocument: pre-image history expired")
    else
      .ok ⟨[], .cancelled⟩

/-- The last element of a list, defaulting to `d` for the empty list. -/
def lastD {α : Type} (l : List α) (d : α) : α :=
  l.foldl (fun _ x => x) d

@[simp]
lemma lastD_nil {α : Type} (d : α) : lastD ([] : List α) d = d := rfl

@[simp]
lemma lastD_cons {α : Type} (x : α) (l : List α) (d : α) : lastD (x :: l) d = lastD l x := rfl

@[simp]
lemma deriveResumePoint_id (e : ChangeStreamEvent) : (deriveResumePoint e).id = e.id := rfl

@[simp]
lemma deriveResumePoint_operationType (e : ChangeStreamEvent) :
    (deriveResumePoint e).operationType = e.operationType := rfl

@[simp]
lemma deriveResumePoint_timestamp (e : ChangeStreamEvent) :
    (deriveResumePoint e).timestamp = e.timestamp := rfl

/-- A pipeline of pure dispatch stages leaves the state unchanged and
threads the error exactly as `chainPure` does. -/
lemma runDispatch_pure {σ : Type} (dfs : List (ChangeStreamEvent → Option GoError → Option GoError))
    (s : σ) (ce : ChangeStreamEvent) (e : Option GoError) :
    runDispatch (dfs.map pureDispatch) s ce e = (s, chainPure dfs ce e) := by
  induction dfs generalizing e with
  | nil => rfl
  | cons f rest ih => simp [runDispatch, pureDispatch, chainPure] at ih ⊢; exact ih _

/-- Saving into a singleton store holding a record with a different id
appends the new record. -/
lemma saveResumePoint_singleton (p e : ChangeStreamEvent) (h : p.id ≠ e.id) :
    saveResumePoint [deriveResumePoint p] (deriveResumePoint e) =
      [deriveResumePoint p, deriveResumePoint e] := by
  simp [saveResumePoint, h]

/-- One normal-path iteration over the repository-backed save/delete
functions, starting from the store the protocol maintains (empty before the
first cold event, otherwise exactly the previous event's record): the new
record is saved, the previous one deleted, and the loop continues (or
halts) with the store holding exactly the new event's record. -/
lemma watchLoop_normal_step (dfs : List (ChangeStreamEvent → Option GoError → Option GoError))
    (rt : Option ChangeStreamResumePoint) (prev : Option ChangeStreamEvent) (s : Store)
    (e : ChangeStreamEvent) (rest : List (Except GoError ChangeStreamEvent))
    (hnp : prev ≠ none ∨ rt = none)
    (hst : (prev = none ∧ s = []) ∨
      ∃ p, prev = some p ∧ s = [deriveResumePoint p] ∧ p.id ≠ e.id) :
    watchLoop saveFuncRepo deleteFuncRepo (dfs.map pureDispatch) rt prev (.ok e :: rest) s =
      match chainPure dfs e none with
      | some er => ([deriveResumePoint e], some (.wrap "failed to process event" er))
      | none =>
        if e.operationType = OperationTypeInvalidate then
          ([deriveResumePoint e], some .errInvalidate)
        else
          watchLoop saveFuncRepo deleteFuncRepo (dfs.map pureDispatch) rt (some e) rest
            [deriveResumePoint e] := by
  have hcond : ¬(prev = none ∧ rt ≠ none) := by tauto
  rcases hst with ⟨hp, hs⟩ | ⟨p, hp, hs, hne⟩
  · subst hp; subst hs
    have hrt : rt = none := by
      rcases hnp with h | h
      · exact absurd rfl h
      · exact h
    subst hrt
    simp only [watchLoop, watchStep, saveFuncRepo, saveResumePoint, runDispatch_pure]
    cases chainPure dfs e none with
    | some er => simp
    | none =>
      by_cases hinv : e.operationType = OperationTypeInvalidate <;> simp [hinv]
  · subst hp; subst hs
    simp only [watchLoop, watchStep, hcond, if_false, saveFuncRepo,
      saveResumePoint_singleton p e hne, deleteFuncRepo, runDispatch_pure]
    have hdel : deleteResumePoint [deriveResumePoint p, deriveResumePoint e] p.id =
        [deriveResumePoint e] := by
      simp [deleteResumePoint]
    rw [hdel]
    cases chainPure dfs e none with
    | some er => simp
    | none =>
      by_cases hinv : e.operationType = OperationTypeInvalidate <;> simp [hinv]

/-- The first event of a cold start (no resume point, empty store): it is
saved, nothing is deleted, and the loop continues with the store holding
exactly its record. -/
lemma watchLoop_cold_first (dfs : List (ChangeStreamEvent → Option GoError → Option GoError))
    (e : ChangeStreamEvent) (rest : List (Except GoError ChangeStreamEvent))
    (hinv : e.operationType ≠ OperationTypeInvalidate)
    (hd : chainPure dfs e none = none) :
    watchLoop saveFuncRepo deleteFuncRepo (dfs.map pureDispatch) none none (.ok e :: rest) [] =
      watchLoop saveFuncRepo deleteFuncRepo (dfs.map pureDispatch) none (some e) rest
        [deriveResumePoint e] := by
  rw [watchLoop_normal_step dfs none none [] e rest (Or.inr rfl) (Or.inl ⟨rfl, rfl⟩), hd]
  simp [hinv]

/-- The first event after a warm resume: nothing is saved or deleted (the
store is untouched), the event is dispatched, and when it is not an
invalidate event it becomes `previousEvent`. -/
lemma watchLoop_warm_first (dfs : List (ChangeStreamEvent → Option GoError → Option GoError))
    (rp : ChangeStreamResumePoint) (e : ChangeStreamEvent)
    (rest : List (Except GoError ChangeStreamEvent)) (s : Store)
    (hinv : e.operationType ≠ OperationTypeInvalidate)
    (hd : chainPure dfs e none = none) :
    watchLoop saveFuncRepo deleteFuncRepo (dfs.map pureDispatch) (some rp) none
        (.ok e :: rest) s =
      watchLoop saveFuncRepo deleteFuncRepo (dfs.map pureDispatch) (some rp) (some e) rest s := by
  simp [watchLoop, watchStep, runDispatch_pure, hd, hinv]

/-- A run of clean events (no invalidate, successful dispatch, adjacent
distinct ids) from the steady state `previousEvent = p`, store `[record p]`
ends in the steady state for the last of them, with any trailing items
still to process. -/
lemma watchLoop_seg (dfs : List (ChangeStreamEvent → Option GoError → Option GoError))
    (rt : Option ChangeStreamResumePoint) :
    ∀ (L : List ChangeStreamEvent) (p : ChangeStreamEvent)
      (rest : List (Except GoError ChangeStreamEvent)),
      (∀ e ∈ L, e.operationType ≠ OperationTypeInvalidate ∧ chainPure dfs e none = none) →
      List.Chain' (fun a b => a.id ≠ b.id) (p :: L) →
      watchLoop saveFuncRepo deleteFuncRepo (dfs.map pureDispatch) rt (some p)
          (L.map .ok ++ rest) [deriveResumePoint p] =
        watchLoop saveFuncRepo deleteFuncRepo (dfs.map pureDispatch) rt (some (lastD L p))
          rest [deriveResumePoint (lastD L p)] := by
  intro L
  induction L with
  | nil => intro p rest _ _; simp
  | cons e L ih =>
    intro p rest hcl hch
    have hpe : p.id ≠ e.id := (List.chain'_cons.mp hch).1
    have hche : List.Chain' (fun a b => a.id ≠ b.id) (e :: L) :=
      (List.chain'_cons.mp hch).2
    have hce := hcl e (List.mem_cons_self e L)
    have hstep := watchLoop_normal_step dfs rt (some p) [deriveResumePoint p] e
      ((L.map .ok) ++ rest) (Or.inl (by simp)) (Or.inr ⟨p, rfl, rfl, hpe⟩)
    simp only [List.map_cons, List.cons_append] at hstep ⊢
    rw [hstep, hce.2]
    simp only [hce.1, if_false, lastD_cons]
    exact ih e rest (fun x hx => hcl x (List.mem_cons_of_mem e hx)) hche

lemma lastD_mem {α : Type} : ∀ (l : List α) (d : α), lastD l d ∈ d :: l
  | [], d => by simp
  | x :: l, d => by
    have h := lastD_mem l x
    simp only [lastD_cons, List.mem_cons] at h ⊢
    tauto

/-- Processing a nonempty clean run from loop entry (`previousEvent = nil`),
either cold (no resume point, empty store) or warm (resume point and store
matching the first delivered event), ends in the steady state for the last
event of the run. -/
lemma watchLoop_run_clean (dfs : List (ChangeStreamEvent → Option GoError → Option GoError))
    (rt : Option ChangeStreamResumePoint) (s0 : Store) (p0 : ChangeStreamEvent)
    (pre : List ChangeStreamEvent) (rest : List (Except GoError ChangeStreamEvent))
    (hclean : ∀ e ∈ p0 :: pre,
      e.operationType ≠ OperationTypeInvalidate ∧ chainPure dfs e none = none)
    (hch : List.Chain' (fun a b => a.id ≠ b.id) (p0 :: pre))
    (hstart : (rt = none ∧ s0 = []) ∨
      (rt = some (deriveResumePoint p0) ∧ s0 = [deriveResumePoint p0])) :
    watchLoop saveFuncRepo deleteFuncRepo (dfs.map pureDispatch) rt none
        ((p0 :: pre).map .ok ++ rest) s0 =
      watchLoop saveFuncRepo deleteFuncRepo (dfs.map pureDispatch) rt (some (lastD pre p0))
        rest [deriveResumePoint (lastD pre p0)] := by
  have h0 := hclean p0 (List.mem_cons_self p0 pre)
  have hrest : ∀ e ∈ pre, e.operationType ≠ OperationTypeInvalidate ∧
      chainPure dfs e none = none :=
    fun e he => hclean e (List.mem_cons_of_mem p0 he)
  rcases hstart with ⟨hrt, hs⟩ | ⟨hrt, hs⟩
  · subst hrt; subst hs
    simp only [List.map_cons, List.cons_append]
    rw [watchLoop_cold_first dfs p0 (pre.map Except.ok ++ rest) h0.1 h0.2]
    exact watchLoop_seg dfs none pre p0 rest hrest hch
  · subst hrt; subst hs
    simp only [List.map_cons, List.cons_append]
    rw [watchLoop_warm_first dfs (deriveResumePoint p0) p0 (pre.map Except.ok ++ rest)
      [deriveResumePoint p0] h0.1 h0.2]
    exact watchLoop_seg dfs (some (deriveResumePoint p0)) pre p0 rest hrest hch

/-- After a normal-path iteration for event `ek` from the steady state of
`q`, the store holds exactly `ek`'s record, whatever dispatch and the
operation type of `ek` do afterwards. -/
lemma watchLoop_store_after (dfs : List (ChangeStreamEvent → Option GoError → Option GoError))
    (rt : Option ChangeStreamResumePoint) (prev : Option ChangeStreamEvent) (s : Store)
    (ek : ChangeStreamEvent) (rest : List (Except GoError ChangeStreamEvent))
    (hnp : prev ≠ none ∨ rt = none)
    (hst : (prev = none ∧ s = []) ∨
      ∃ p, prev = some p ∧ s = [deriveResumePoint p] ∧ p.id ≠ ek.id)
    (hend : ∀ e ∈ rest, False) :
    (watchLoop saveFuncRepo deleteFuncRepo (dfs.map pureDispatch) rt prev (.ok ek :: rest) s).1 =
      [deriveResumePoint ek] := by
  have hrest : rest = [] := List.eq_nil_iff_forall_not_mem.mpr hend
  subst hrest
  rw [watchLoop_normal_step dfs rt prev s ek [] hnp hst]
  cases chainPure dfs ek none with
  | some er => simp
  | none =>
    by_cases hinv : ek.operationType = OperationTypeInvalidate <;> simp [hinv, watchLoop]

/-- Events distinct from a trailing event, extracted from pairwise-distinct
ids. -/
lemma pairwise_ne_last {pre : List ChangeStreamEvent} {ek : ChangeStreamEvent}
    (hids : (pre ++ [ek]).Pairwise (fun a b => a.id ≠ b.id)) :
    ∀ p ∈ pre, p.id ≠ ek.id := by
  intro p hp
  have h := (List.pairwise_append.mp hids).2.2
  exact h p hp ek (List.mem_singleton_self ek)

/-- Core store invariant: a run over `pre ++ [ek]`, entered cold or warm
(warm entry requires `pre` to start with the redelivered checkpointed
event), ends with the checkpoint collection holding exactly `ek`'s
record. -/
lemma watchChangeStream_single_checkpoint
    (dfs : List (ChangeStreamEvent → Option GoError → Option GoError))
    (rt : Option ChangeStreamResumePoint) (s0 : Store)
    (pre : List ChangeStreamEvent) (ek : ChangeStreamEvent)
    (hids : (pre ++ [ek]).Pairwise (fun a b => a.id ≠ b.id))
    (hclean : ∀ e ∈ pre,
      e.operationType ≠ OperationTypeInvalidate ∧ chainPure dfs e none = none)
    (hstart : (rt = none ∧ s0 = []) ∨
      (∃ e1 tl, pre = e1 :: tl ∧ rt = some (deriveResumePoint e1) ∧
        s0 = [deriveResumePoint e1])) :
    (watchChangeStream saveFuncRepo deleteFuncRepo (dfs.map pureDispatch) rt
        ⟨(pre ++ [ek]).map .ok, .cancelled⟩ s0).1 = [deriveResumePoint ek] := by
  have hne : ∀ p ∈ pre, p.id ≠ ek.id := pairwise_ne_last hids
  cases pre with
  | nil =>
    obtain ⟨hrt, hs⟩ : rt = none ∧ s0 = [] := by
      rcases hstart with h | ⟨e1, tl, heq, _, _⟩
      · exact h
      · exact absurd heq (by simp)
    subst hrt; subst hs
    simp only [watchChangeStream, List.nil_append, List.map_cons, List.map_nil]
    exact watchLoop_store_after dfs none none [] ek [] (Or.inr rfl)
      (Or.inl ⟨rfl, rfl⟩) (by simp)
  | cons p0 pre' =>
    have hch : List.Chain' (fun a b => a.id ≠ b.id) (p0 :: pre') :=
      ((List.pairwise_append.mp hids).1).chain'
    have hstart' : (rt = none ∧ s0 = []) ∨
        (rt = some (deriveResumePoint p0) ∧ s0 = [deriveResumePoint p0]) := by
      rcases hstart with h | ⟨e1, tl, heq, h1, h2⟩
      · exact Or.inl h
      · injection heq with h3 _
        subst h3
        exact Or.inr ⟨h1, h2⟩
    have hrun := watchLoop_run_clean dfs rt s0 p0 pre' [Except.ok ek] hclean hch hstart'
    simp only [List.map_cons, List.cons_append] at hrun
    simp only [watchChangeStream, List.cons_append, List.map_append, List.map_cons,
      List.map_nil]
    rw [hrun]
    exact watchLoop_store_after dfs rt (some (lastD pre' p0)) _ ek []
      (Or.inl (by simp))
      (Or.inr ⟨lastD pre' p0, rfl, rfl,
        hne (lastD pre' p0) (lastD_mem pre' p0)⟩)
      (by simp)

/-- C1: for every run of the watch loop over delivered events
`pre ++ [ek]` with `k = |pre| + 1 ≥ 2`, entered either cold (no resume
point, empty checkpoint collection) or warm (a resume point, the collection
holding exactly the record of the first redelivered event), with distinct
resume tokens, no invalidate among the first `k-1` events and clean
dispatch on them, the checkpoint collection after the protocol finishes
processing the `k`-th event `ek` contains exactly one record, namely
`ek`'s. -/
theorem c1_exactly_one_checkpoint
    (dfs : List (ChangeStreamEvent → Option GoError → Option GoError))
    (rt : Option ChangeStreamResumePoint) (s0 : Store)
    (pre : List ChangeStreamEvent) (ek : ChangeStreamEvent)
    (_hk : 1 ≤ pre.length)
    (hids : (pre ++ [ek]).Pairwise (fun a b => a.id ≠ b.id))
    (hclean : ∀ e ∈ pre,
      e.operationType ≠ OperationTypeInvalidate ∧ chainPure dfs e none = none)
    (hstart : (rt = none ∧ s0 = []) ∨
      (∃ e1 tl, pre = e1 :: tl ∧ rt = some (deriveResumePoint e1) ∧
        s0 = [deriveResumePoint e1])) :
    (watchChangeStream saveFuncRepo deleteFuncRepo (dfs.map pureDispatch) rt
        ⟨(pre ++ [ek]).map .ok, .cancelled⟩ s0).1 = [deriveResumePoint ek] :=
  watchChangeStream_single_checkpoint dfs rt s0 pre ek hids hclean hstart

/-- C10: on a cold start (no resume point, empty checkpoint collection) the
exactly-one-checkpoint property already holds after the first event, and
after every event `k ≥ 1`: the first conjunct gives the store contents for
an arbitrary prefix (possibly empty, so `k = 1` is included); the second
shows processing the very first event performs a save and no delete. -/
theorem c10_cold_start_first_event
    (dfs : List (ChangeStreamEvent → Option GoError → Option GoError))
    (df : ChangeStreamEvent → Option GoError → Option GoError)
    (pre : List ChangeStreamEvent) (ek : ChangeStreamEvent) (e1 : ChangeStreamEvent)
    (hids : (pre ++ [ek]).Pairwise (fun a b => a.id ≠ b.id))
    (hclean : ∀ e ∈ pre,
      e.operationType ≠ OperationTypeInvalidate ∧ chainPure dfs e none = none) :
    (watchChangeStream saveFuncRepo deleteFuncRepo (dfs.map pureDispatch) none
        ⟨(pre ++ [ek]).map .ok, .cancelled⟩ []).1 = [deriveResumePoint ek] ∧
    (watchStep (saveFuncTraced fun _ => none) (deleteFuncTraced fun _ => none)
        [dispatchTraced df] none none (.ok e1) ⟨[], []⟩).1 =
      ⟨[deriveResumePoint e1], [.save e1.id true, .dispatch e1.id]⟩ := by
  constructor
  · exact watchChangeStream_single_checkpoint dfs none [] pre ek hids hclean
      (Or.inl ⟨rfl, rfl⟩)
  · simp only [watchStep, saveFuncTraced, saveResumePoint, runDispatch, dispatchTraced]
    cases df e1 none with
    | some er => simp
    | none =>
      by_cases hinv : e1.operationType = OperationTypeInvalidate <;> simp [hinv]

/-- C5: if the dispatch pipeline fails on event `ek` on the normal path
(after a clean prefix `pre`, with `k = |pre| + 1`; for a warm entry the
first redelivered event heads `pre`), the loop terminates at `ek` with the
dispatch error (wrapped as `failed to process event`), never reaching the
later events `suf`, and the surviving checkpoint is exactly `ek`'s record:
checkpointing happened before dispatch. -/
theorem c5_dispatch_failure_keeps_checkpoint
    (dfs : List (ChangeStreamEvent → Option GoError → Option GoError))
    (rt : Option ChangeStreamResumePoint) (s0 : Store)
    (pre : List ChangeStreamEvent) (ek : ChangeStreamEvent) (suf : List ChangeStreamEvent)
    (er : GoError)
    (hids : (pre ++ [ek]).Pairwise (fun a b => a.id ≠ b.id))
    (hclean : ∀ e ∈ pre,
      e.operationType ≠ OperationTypeInvalidate ∧ chainPure dfs e none = none)
    (hfail : chainPure dfs ek none = some er)
    (hstart : (rt = none ∧ s0 = []) ∨
      (∃ e1 tl, pre = e1 :: tl ∧ rt = some (deriveResumePoint e1) ∧
        s0 = [deriveResumePoint e1])) :
    watchChangeStream saveFuncRepo deleteFuncRepo (dfs.map pureDispatch) rt
        ⟨(pre ++ ek :: suf).map .ok, .cancelled⟩ s0 =
      ([deriveResumePoint ek], some (.wrap "failed to process event" er)) := by
  have hne : ∀ p ∈ pre, p.id ≠ ek.id := pairwise_ne_last hids
  cases pre with
  | nil =>
    have hcold : rt = none ∧ s0 = [] := by
      rcases hstart with h | ⟨e1, tl, heq, _, _⟩
      · exact h
      · exact absurd heq (by simp)
    obtain ⟨hrt, hs⟩ := hcold
    subst hrt; subst hs
    simp only [watchChangeStream, List.nil_append, List.map_cons]
    rw [watchLoop_normal_step dfs none none [] ek (suf.map Except.ok) (Or.inr rfl)
      (Or.inl ⟨rfl, rfl⟩), hfail]
  | cons p0 pre' =>
    have hstart' : (rt = none ∧ s0 = []) ∨
        (rt = some (deriveResumePoint p0) ∧ s0 = [deriveResumePoint p0]) := by
      rcases hstart with h | ⟨e1, tl, heq, h1, h2⟩
      · exact Or.inl h
      · injection heq with h3 _
        subst h3
        exact Or.inr ⟨h1, h2⟩
    have hch : List.Chain' (fun a b => a.id ≠ b.id) (p0 :: pre') :=
      ((List.pairwise_append.mp hids).1).chain'
    have hrun := watchLoop_run_clean dfs rt s0 p0 pre' (Except.ok ek :: suf.map Except.ok)
      hclean hch hstart'
    simp only [List.map_cons, List.cons_append] at hrun
    simp only [watchChangeStream, List.cons_append, List.map_append, List.map_cons]
    rw [hrun, watchLoop_normal_step dfs rt (some (lastD pre' p0))
      [deriveResumePoint (lastD pre' p0)] ek (suf.map Except.ok) (Or.inl (by simp))
      (Or.inr ⟨lastD pre' p0, rfl, rfl,
        hne (lastD pre' p0) (lastD_mem pre' p0)⟩), hfail]

/-- Witness for C5: a concrete cold run where dispatch fails on the second
of three events terminates there with the wrapped error and keeps exactly
that event's checkpoint. -/
theorem c5_witness :
    watchChangeStream saveFuncRepo deleteFuncRepo
        (List.map pureDispatch
          [fun ce e => if ce.documentKey = "doc-1" then some (.mk "intended error") else e])
        none ⟨[Except.ok evInsert0, Except.ok evInsert1, Except.ok evInsert2],
          EndReason.cancelled⟩ [] =
      ([deriveResumePoint evInsert1], some (.wrap "failed to process event" (.mk "intended error"))) :=
  c5_dispatch_failure_keeps_checkpoint
    [fun ce e => if ce.documentKey = "doc-1" then some (.mk "intended error") else e]
    none [] [evInsert0] evInsert1 [evInsert2] (.mk "intended error") (by decide) (by decide)
    (by decide) (Or.inl ⟨rfl, rfl⟩)

/-- `dropWhile` skips a prefix on which the predicate holds and stops at
the first element where it fails. -/
lemma dropWhile_append_of_forall {α : Type} (p : α → Bool) :
    ∀ (l : List α) (y : α) (tail : List α), (∀ x ∈ l, p x = true) → p y = false →
      List.dropWhile p (l ++ y :: tail) = y :: tail := by
  intro l
  induction l with
  | nil => intro y tail _ hy; simp [List.dropWhile_cons, hy]
  | cons x l ih =>
    intro y tail hall hy
    have hx : p x = true := hall x (List.mem_cons_self x l)
    simp only [List.cons_append, List.dropWhile_cons, hx, if_true]
    exact ih y tail (fun z hz => hall z (List.mem_cons_of_mem x hz)) hy

/-- C3: an invalidate event `ek` delivered mid-stream on the normal path of
a cold attempt makes the attempt return the distinguished `ErrInvalidate`
with `ek`'s record as the sole checkpoint; the error stays recognizable
through the wrapping of `startWatcher` and `Manager.Watch`, so the retry
supervisor's op stops the manager before returning, hence before the next
attempt starts; and the next attempt, resuming from the stored checkpoint
(an invalidate-typed record, hence opened with start-after semantics),
receives as its first delivered event the event immediately following the
invalidate event, never the invalidate event itself. -/
theorem c3_invalidate_recovery
    (dfs : List (ChangeStreamEvent → Option GoError → Option GoError))
    (pre : List ChangeStreamEvent) (ek enext : ChangeStreamEvent)
    (suf : List ChangeStreamEvent)
    (hids : (pre ++ ek :: enext :: suf).Pairwise (fun a b => a.id ≠ b.id))
    (hclean : ∀ e ∈ pre,
      e.operationType ≠ OperationTypeInvalidate ∧ chainPure dfs e none = none)
    (hinv : ek.operationType = OperationTypeInvalidate)
    (hdk : chainPure dfs ek none = none) :
    watchChangeStream saveFuncRepo deleteFuncRepo (dfs.map pureDispatch) none
        ⟨(pre ++ ek :: enext :: suf).map .ok, .cursorError⟩ [] =
      ([deriveResumePoint ek], some .errInvalidate) ∧
    (GoError.wrap "failed to watch mongo stream"
        (GoError.wrap "failed to watch change stream" GoError.errInvalidate)).is
      GoError.errInvalidate = true ∧
    startWithRetry [some (GoError.wrap "failed to watch mongo stream"
        (GoError.wrap "failed to watch change stream" GoError.errInvalidate)), none] =
      [.start, .stop, .start] ∧
    getLastResumePoint [deriveResumePoint ek] = some (deriveResumePoint ek) ∧
    (openFeed (pre ++ ek :: enext :: suf)
        (buildWatchOptions (some (deriveResumePoint ek)))).head? = some enext ∧
    enext ≠ ek := by
  have hsplit := List.pairwise_append.mp hids
  have hne : ∀ p ∈ pre, p.id ≠ ek.id :=
    fun p hp => hsplit.2.2 p hp ek (List.mem_cons_self ek (enext :: suf))
  have hek_enext : ek.id ≠ enext.id :=
    (List.pairwise_cons.mp hsplit.2.1).1 enext (List.mem_cons_self enext suf)
  refine ⟨?_, by decide, by decide, rfl, ?_, ?_⟩
  · cases pre with
    | nil =>
      simp only [watchChangeStream, List.nil_append, List.map_cons]
      rw [watchLoop_normal_step dfs none none [] ek (Except.ok enext :: suf.map Except.ok)
        (Or.inr rfl) (Or.inl ⟨rfl, rfl⟩), hdk]
      simp [hinv]
    | cons p0 pre' =>
      have hch : List.Chain' (fun a b => a.id ≠ b.id) (p0 :: pre') := hsplit.1.chain'
      have hrun := watchLoop_run_clean dfs none [] p0 pre'
        ((ek :: enext :: suf).map Except.ok) hclean hch (Or.inl ⟨rfl, rfl⟩)
      simp only [List.map_cons, List.cons_append] at hrun
      simp only [watchChangeStream, List.cons_append, List.map_append, List.map_cons]
      rw [hrun, watchLoop_normal_step dfs none (some (lastD pre' p0))
        [deriveResumePoint (lastD pre' p0)] ek (Except.ok enext :: suf.map Except.ok)
        (Or.inl (by simp))
        (Or.inr ⟨lastD pre' p0, rfl, rfl, hne (lastD pre' p0) (lastD_mem pre' p0)⟩), hdk]
      simp [hinv]
  · have hopts : buildWatchOptions (some (deriveResumePoint ek)) =
        { fullDocument := .updateLookup
          fullDocumentBeforeChange := .required
          startAfter := some ek.id
          startAtOperationTime := none } := by
      simp [buildWatchOptions, hinv]
    rw [hopts]
    simp only [openFeed]
    rw [dropWhile_append_of_forall (fun e => !(e.id == ek.id)) pre ek (enext :: suf)
      (fun x hx => by simp [hne x hx]) (by simp)]
    rfl
  · intro h
    exact hek_enext (h ▸ rfl)

/-- Witness for C3: a concrete attempt over two inserts, an invalidate and
a trailing insert, checking the full recovery chain. -/
theorem c3_witness :
    watchChangeStream saveFuncRepo deleteFuncRepo (List.map pureDispatch []) none
        ⟨[Except.ok evInsert0, Except.ok evInsert1, Except.ok evInvalidate3,
          Except.ok evInsert4], EndReason.cursorError⟩ [] =
      ([deriveResumePoint evInvalidate3], some .errInvalidate) ∧
    (GoError.wrap "failed to watch mongo stream"
        (GoError.wrap "failed to watch change stream" GoError.errInvalidate)).is
      GoError.errInvalidate = true ∧
    startWithRetry [some (GoError.wrap "failed to watch mongo stream"
        (GoError.wrap "failed to watch change stream" GoError.errInvalidate)), none] =
      [.start, .stop, .start] ∧
    getLastResumePoint [deriveResumePoint evInvalidate3] =
      some (deriveResumePoint evInvalidate3) ∧
    (openFeed [evInsert0, evInsert1, evInvalidate3, evInsert4]
        (buildWatchOptions (some (deriveResumePoint evInvalidate3)))).head? = some evInsert4 ∧
    evInsert4 ≠ evInvalidate3 :=
  c3_invalidate_recovery [] [evInsert0, evInsert1] evInvalidate3 evInsert4 []
    (by decide) (by decide) (by decide) (by decide)

/-- C2: on the normal path (not the first event after a warm resume), the
call trace for one event `e` is exactly: a save for `e` first; then, only
when the save succeeded and a previous event exists, a delete with that
previous event's id; then, only when save and delete both succeeded, one
run of the dispatch pipeline — and on a save or delete failure the loop
halts with the corresponding wrapped error, so nothing later runs. -/
theorem c2_normal_path_ordering
    (saveErr deleteErr : ChangeStreamEvent → Option GoError)
    (df : ChangeStreamEvent → Option GoError → Option GoError)
    (rt : Option ChangeStreamResumePoint) (prev : Option ChangeStreamEvent)
    (e : ChangeStreamEvent) (st : TracedState)
    (hnormal : prev ≠ none ∨ rt = none) :
    (watchStep (saveFuncTraced saveErr) (deleteFuncTraced deleteErr) [dispatchTraced df]
        rt prev (.ok e) st).1.log =
      st.log ++
        (match saveErr e with
         | some _ => [StoreOp.save e.id false]
         | none =>
           StoreOp.save e.id true ::
             (match prev with
              | none => [StoreOp.dispatch e.id]
              | some p =>
                match deleteErr p with
                | some _ => [StoreOp.delete p.id false]
                | none => [StoreOp.delete p.id true, StoreOp.dispatch e.id])) ∧
    (∀ er, saveErr e = some er →
      (watchStep (saveFuncTraced saveErr) (deleteFuncTraced deleteErr) [dispatchTraced df]
          rt prev (.ok e) st).2 =
        .halt (some (.wrap "failed to save event" (.wrap "failed to save resume point" er)))) ∧
    (∀ p er, prev = some p → saveErr e = none → deleteErr p = some er →
      (watchStep (saveFuncTraced saveErr) (deleteFuncTraced deleteErr) [dispatchTraced df]
          rt prev (.ok e) st).2 = .halt (some (.wrap "failed to delete event" er))) := by
  have hcond : ¬(prev = none ∧ rt ≠ none) := by tauto
  refine ⟨?_, ?_, ?_⟩
  · cases hsave : saveErr e with
    | some er => simp [watchStep, hcond, saveFuncTraced, hsave]
    | none =>
      cases prev with
      | none =>
        have hrt : rt = none := by
          rcases hnormal with h | h
          · exact absurd rfl h
          · exact h
        subst hrt
        simp only [watchStep, hcond, if_false, saveFuncTraced, hsave, runDispatch,
          dispatchTraced]
        cases df e none with
        | some er => simp
        | none =>
          by_cases hinv : e.operationType = OperationTypeInvalidate <;>
            simp [hinv, List.append_assoc]
      | some p =>
        cases hdel : deleteErr p with
        | some er =>
          simp [watchStep, hcond, saveFuncTraced, hsave, deleteFuncTraced, hdel,
            List.append_assoc]
        | none =>
          simp only [watchStep, hcond, if_false, saveFuncTraced, hsave, deleteFuncTraced,
            hdel, runDispatch, dispatchTraced]
          cases df e none with
          | some er => simp [List.append_assoc]
          | none =>
            by_cases hinv : e.operationType = OperationTypeInvalidate <;>
              simp [hinv, List.append_assoc]
  · intro er hsave
    simp [watchStep, hcond, saveFuncTraced, hsave]
  · intro p er hp hsave hdel
    subst hp
    simp [watchStep, hcond, saveFuncTraced, hsave, deleteFuncTraced, hdel]

/-- Witness for C2: a concrete normal-path step (previous event present,
everything succeeding) produces the save/delete/dispatch trace in order. -/
theorem c2_witness :
    (watchStep (saveFuncTraced fun _ => none) (deleteFuncTraced fun _ => none)
        [dispatchTraced fun _ e => e] none (some evInsert0) (.ok evInsert1)
        ⟨[deriveResumePoint evInsert0], []⟩).1.log =
      [StoreOp.save evInsert1.id true, StoreOp.delete evInsert0.id true,
       StoreOp.dispatch evInsert1.id] :=
  (c2_normal_path_ordering (fun _ => none) (fun _ => none) (fun _ e => e) none
    (some evInsert0) evInsert1 ⟨[deriveResumePoint evInsert0], []⟩ (Or.inl (by simp))).1

/-- C4: the first event drawn from the cursor when the loop is entered with
a non-nil resume point is passed directly to the dispatch pipeline — the
checkpoint store is untouched (no save, no delete: the state keeps its
store and gains only a dispatch log entry); if its operation type is
invalidate the loop returns the distinguished `ErrInvalidate` after
dispatch, otherwise the event becomes `previousEvent` and the loop
continues without advancing the checkpoint. -/
theorem c4_warm_resume_first_event
    (saveErr deleteErr : ChangeStreamEvent → Option GoError)
    (df : ChangeStreamEvent → Option GoError → Option GoError)
    (rp : ChangeStreamResumePoint) (e : ChangeStreamEvent)
    (rest : List (Except GoError ChangeStreamEvent)) (st : TracedState)
    (reason : EndReason) :
    (df e none = none → e.operationType = OperationTypeInvalidate →
      watchChangeStream (saveFuncTraced saveErr) (deleteFuncTraced deleteErr)
          [dispatchTraced df] (some rp) ⟨.ok e :: rest, reason⟩ st =
        ({ st with log := st.log ++ [StoreOp.dispatch e.id] }, some .errInvalidate)) ∧
    (df e none = none → e.operationType ≠ OperationTypeInvalidate →
      watchChangeStream (saveFuncTraced saveErr) (deleteFuncTraced deleteErr)
          [dispatchTraced df] (some rp) ⟨.ok e :: rest, reason⟩ st =
        watchLoop (saveFuncTraced saveErr) (deleteFuncTraced deleteErr)
          [dispatchTraced df] (some rp) (some e) rest
          { st with log := st.log ++ [StoreOp.dispatch e.id] }) ∧
    (∀ er, df e none = some er →
      watchChangeStream (saveFuncTraced saveErr) (deleteFuncTraced deleteErr)
          [dispatchTraced df] (some rp) ⟨.ok e :: rest, reason⟩ st =
        ({ st with log := st.log ++ [StoreOp.dispatch e.id] },
         some (.wrap "failed to process first event" er))) := by
  refine ⟨?_, ?_, ?_⟩
  · intro hdf hinv
    simp [watchChangeStream, watchLoop, watchStep, runDispatch, dispatchTraced, hdf, hinv]
  · intro hdf hinv
    simp [watchChangeStream, watchLoop, watchStep, runDispatch, dispatchTraced, hdf, hinv]
  · intro er hdf
    simp [watchChangeStream, watchLoop, watchStep, runDispatch, dispatchTraced, hdf]

/-- Witness for C4: a concrete warm-resume first event is dispatched
without touching the store and becomes the previous event. -/
theorem c4_witness :
    watchChangeStream (saveFuncTraced fun _ => none) (deleteFuncTraced fun _ => none)
        [dispatchTraced fun _ e => e] (some (deriveResumePoint evInsert0))
        ⟨[Except.ok evInsert0], EndReason.cancelled⟩
        ⟨[deriveResumePoint evInsert0], []⟩ =
      watchLoop (saveFuncTraced fun _ => none) (deleteFuncTraced fun _ => none)
        [dispatchTraced fun _ e => e] (some (deriveResumePoint evInsert0)) (some evInsert0)
        [] ⟨[deriveResumePoint evInsert0], [StoreOp.dispatch evInsert0.id]⟩ :=
  (c4_warm_resume_first_event (fun _ => none) (fun _ => none) (fun _ e => e)
    (deriveResumePoint evInsert0) evInsert0 [] ⟨[deriveResumePoint evInsert0], []⟩
    EndReason.cancelled).2.1 rfl (by decide)

/-- C6 (amended): the watch loop returns nil exactly when cursor iteration
ends without producing a new event, and it cannot distinguish why: the
result is independent of the end reason (the cursor's error is never
inspected), so a mid-stream cursor failure also yields nil; every mid-loop
return — extraction failure, save or delete failure, dispatch failure, or
the invalidate signal — carries a non-nil error. -/
theorem c6_termination_amended :
    (∀ (σ : Type) (saveF deleteF : DFunc σ) (dfs : List (DFunc σ))
        (rt : Option ChangeStreamResumePoint)
        (items : List (Except GoError ChangeStreamEvent)) (r1 r2 : EndReason) (s : σ),
      watchChangeStream saveF deleteF dfs rt ⟨items, r1⟩ s =
        watchChangeStream saveF deleteF dfs rt ⟨items, r2⟩ s) ∧
    (∀ (σ : Type) (saveF deleteF : DFunc σ) (dfs : List (DFunc σ))
        (rt : Option ChangeStreamResumePoint) (r : EndReason) (s : σ),
      watchChangeStream saveF deleteF dfs rt ⟨[], r⟩ s = (s, none)) ∧
    (∀ (σ : Type) (saveF deleteF : DFunc σ) (dfs : List (DFunc σ))
        (rt : Option ChangeStreamResumePoint) (prev : Option ChangeStreamEvent)
        (item : Except GoError ChangeStreamEvent) (s s' : σ) (e : Option GoError),
      watchStep saveF deleteF dfs rt prev item s = (s', .halt e) → e ≠ none) := by
  refine ⟨fun _ _ _ _ _ _ _ _ _ => rfl, fun _ _ _ _ _ _ _ => rfl, ?_⟩
  intro σ saveF deleteF dfs rt prev item s s' e h
  cases item with
  | error ge =>
    simp only [watchStep, Prod.mk.injEq, StepOutcome.halt.injEq] at h
    rw [← h.2]
    simp
  | ok ce =>
    simp only [watchStep] at h
    repeat' split at h
    all_goals
      first
      | (simp only [Prod.mk.injEq, StepOutcome.halt.injEq] at h
         rw [← h.2]
         simp)
      | simp_all

/-- Witness for C6 (amended): a concrete extraction failure halts the step
with a non-nil wrapped error. -/
theorem c6_witness :
    (some (GoError.wrap "failed to extract change event" (GoError.mk "bad bson")) :
      Option GoError) ≠ none :=
  c6_termination_amended.2.2 Store saveFuncRepo deleteFuncRepo
    [pureDispatch fun _ e => e] none none (Except.error (GoError.mk "bad bson")) [] []
    (some (GoError.wrap "failed to extract change event" (GoError.mk "bad bson"))) rfl

/-- Counterexample to C6 as stated: a cursor that ends mid-stream with a
cursor failure (not a cancellation) after delivering one event still makes
the watch loop return nil — the claim says any cursor failure returns a
non-nil error, but `cursor.Err()` is never consulted. -/
theorem c6_counterexample :
    watchChangeStream saveFuncRepo deleteFuncRepo [pureDispatch fun _ e => e] none
        ⟨[Except.ok evInsert0], EndReason.cursorError⟩ [] =
      ([deriveResumePoint evInsert0], none) := by
  decide

/-- C7 (amended): `getWatchCursor` opens from now with no resume point,
strictly after the token for an invalidate resume point, and from the
timestamp for an ordinary one; but pre-image capture is requested
unconditionally (`Required`) and the full-document mode is always
`UpdateLookup` — the consumer's configured `fullDocumentMode` is ignored
(the result does not depend on it). -/
theorem c7_open_options_amended (watchFn : ChangeStreamOptions → Except GoError Cursor)
    (mode mode2 : FullDocument) (rp : Option ChangeStreamResumePoint) :
    (getWatchCursor watchFn mode rp).1.head? = some (buildWatchOptions rp) ∧
    getWatchCursor watchFn mode rp = getWatchCursor watchFn mode2 rp ∧
    (buildWatchOptions rp).fullDocument = FullDocument.updateLookup ∧
    (buildWatchOptions rp).fullDocumentBeforeChange = FullDocument.required ∧
    (rp = none → (buildWatchOptions rp).startAfter = none ∧
      (buildWatchOptions rp).startAtOperationTime = none) ∧
    (∀ p, rp = some p → p.operationType = OperationTypeInvalidate →
      (buildWatchOptions rp).startAfter = some p.id ∧
      (buildWatchOptions rp).startAtOperationTime = none) ∧
    (∀ p, rp = some p → p.operationType ≠ OperationTypeInvalidate →
      (buildWatchOptions rp).startAtOperationTime = some p.timestamp ∧
      (buildWatchOptions rp).startAfter = none) := by
  refine ⟨?_, rfl, ?_, ?_, ?_, ?_, ?_⟩
  · unfold getWatchCursor
    cases watchFn (buildWatchOptions rp) with
    | ok c => rfl
    | error e =>
      by_cases hnmd : strContains e.message "NoMatchingDocument" = true
      · simp only [hnmd, if_true]
        cases watchFn { buildWatchOptions rp with
            fullDocumentBeforeChange := FullDocument.off } <;> rfl
      · simp only [Bool.not_eq_true] at hnmd
        simp [hnmd]
  · cases rp with
    | none => rfl
    | some p =>
      by_cases hinv : p.operationType = OperationTypeInvalidate <;>
        simp [buildWatchOptions, hinv]
  · cases rp with
    | none => rfl
    | some p =>
      by_cases hinv : p.operationType = OperationTypeInvalidate <;>
        simp [buildWatchOptions, hinv]
  · intro h; subst h; exact ⟨rfl, rfl⟩
  · intro p h hinv; subst h; simp [buildWatchOptions, hinv]
  · intro p h hinv; subst h; simp [buildWatchOptions, hinv]

/-- Witness for C7 (amended): concrete check with an ordinary resume point
and two different consumer modes. -/
theorem c7_witness :
    (getWatchCursor (fun _ => Except.ok ⟨[], EndReason.cancelled⟩) FullDocument.off
        (some (deriveResumePoint evInsert0))).1.head? =
      some (buildWatchOptions (some (deriveResumePoint evInsert0))) ∧
    (buildWatchOptions (some (deriveResumePoint evInsert0))).startAtOperationTime =
      some evInsert0.timestamp ∧
    (buildWatchOptions (some (deriveResumePoint evInsert0))).startAfter = none :=
  have h := c7_open_options_amended (fun _ => Except.ok ⟨[], EndReason.cancelled⟩)
    FullDocument.off FullDocument.required (some (deriveResumePoint evInsert0))
  ⟨h.1, (h.2.2.2.2.2.2 (deriveResumePoint evInsert0) rfl (by decide)).1,
    (h.2.2.2.2.2.2 (deriveResumePoint evInsert0) rfl (by decide)).2⟩

/-- Counterexample to C7 as stated: the consumer configures mode `Off` (no
capture) and supplies an ordinary resume point, yet the single open request
still asks for pre-image capture `Required` — the capture request does not
depend on what the consumer configured. -/
theorem c7_counterexample :
    (getWatchCursor (fun _ => Except.ok ⟨[], EndReason.cancelled⟩) FullDocument.off
        (some (deriveResumePoint evInsert0))).1.map
      (fun o => o.fullDocumentBeforeChange) = [FullDocument.required] := by
  decide

/-- C8: a first open failing with the `NoMatchingDocument` condition is
retried exactly once, with the same options except pre-image capture
disabled; the retry's outcome (or, for any other failure, the original
error) is what the watcher returns, wrapped. -/
theorem c8_preimage_retry (watchFn : ChangeStreamOptions → Except GoError Cursor)
    (mode : FullDocument) (rp : Option ChangeStreamResumePoint) :
    (∀ c, watchFn (buildWatchOptions rp) = .ok c →
      getWatchCursor watchFn mode rp = ([buildWatchOptions rp], .ok c)) ∧
    (∀ e, watchFn (buildWatchOptions rp) = .error e →
      strContains e.message "NoMatchingDocument" = true →
      getWatchCursor watchFn mode rp =
        ([buildWatchOptions rp,
          { buildWatchOptions rp with fullDocumentBeforeChange := FullDocument.off }],
         match watchFn { buildWatchOptions rp with
             fullDocumentBeforeChange := FullDocument.off } with
         | .ok c => .ok c
         | .error e2 => .error (.wrap "failed to watch collection" e2))) ∧
    (∀ e, watchFn (buildWatchOptions rp) = .error e →
      strContains e.message "NoMatchingDocument" = false →
      getWatchCursor watchFn mode rp =
        ([buildWatchOptions rp], .error (.wrap "failed to watch collection" e))) ∧
    ({ buildWatchOptions rp with
        fullDocumentBeforeChange := FullDocument.off }.startAfter =
      (buildWatchOptions rp).startAfter) ∧
    ({ buildWatchOptions rp with
        fullDocumentBeforeChange := FullDocument.off }.startAtOperationTime =
      (buildWatchOptions rp).startAtOperationTime) ∧
    ({ buildWatchOptions rp with
        fullDocumentBeforeChange := FullDocument.off }.fullDocument =
      (buildWatchOptions rp).fullDocument) := by
  refine ⟨?_, ?_, ?_, rfl, rfl, rfl⟩
  · intro c hc
    unfold getWatchCursor
    rw [hc]
  · intro e he hnmd
    unfold getWatchCursor
    rw [he]
    simp only [hnmd, if_true]
    cases watchFn { buildWatchOptions rp with
        fullDocumentBeforeChange := FullDocument.off } <;> rfl
  · intro e he hnmd
    unfold getWatchCursor
    rw [he]
    simp [hnmd]

/-- Witness for C8: the concrete degraded open retries once with pre-image
capture off and succeeds. -/
theorem c8_witness :
    getWatchCursor watchFnNoPreImage FullDocument.off none =
      ([buildWatchOptions none,
        { buildWatchOptions none with fullDocumentBeforeChange := FullDocument.off }],
       Except.ok ⟨[], EndReason.cancelled⟩) :=
  (c8_preimage_retry watchFnNoPreImage FullDocument.off none).2.1
    (.mk "NoMatchingDocument: pre-image history expired") rfl (by decide)

/-- C9: the document processor's dispatcher makes at most one collaborator
call per event, and (when serialization succeeds) exactly the right one:
Insert with the serialized post-image for an insert event, Update with the
post-image for an update, Delete with the pre-image when present and
otherwise with the post-image for a delete. -/
theorem c9_dispatcher_classification (marshal : Option Doc → Except GoError String)
    (actions : CollabCall → Option GoError) (ce : ChangeStreamEvent) :
    (docDispatcherFunc marshal actions ce).1.length ≤ 1 ∧
    (ce.operationType = "insert" → ∀ b, marshal ce.fullDocument = .ok b →
      (docDispatcherFunc marshal actions ce).1 = [.insert b]) ∧
    (ce.operationType = "update" → ∀ b, marshal ce.fullDocument = .ok b →
      (docDispatcherFunc marshal actions ce).1 = [.update b]) ∧
    (ce.operationType = "delete" → ∀ d b, ce.fullDocumentBeforeChange = some d →
      marshal (some d) = .ok b →
      (docDispatcherFunc marshal actions ce).1 = [.delete b]) ∧
    (ce.operationType = "delete" → ce.fullDocumentBeforeChange = none →
      ∀ b, marshal ce.fullDocument = .ok b →
      (docDispatcherFunc marshal actions ce).1 = [.delete b]) := by
  refine ⟨?_, ?_, ?_, ?_, ?_⟩
  · unfold docDispatcherFunc
    split
    · cases marshal ce.fullDocument <;> simp
    · split
      · cases marshal ce.fullDocument <;> simp
      · split
        · split
          · cases marshal (some _) <;> simp
          · cases marshal ce.fullDocument <;> simp
        · simp
  · intro hop b hm
    simp [docDispatcherFunc, hop, hm]
  · intro hop b hm
    rw [docDispatcherFunc, if_neg (by rw [hop]; decide)]
    simp [hop, hm]
  · intro hop d b hpre hm
    rw [docDispatcherFunc, if_neg (by rw [hop]; decide), if_neg (by rw [hop]; decide)]
    simp [hop, hpre, hm]
  · intro hop hpre b hm
    rw [docDispatcherFunc, if_neg (by rw [hop]; decide), if_neg (by rw [hop]; decide)]
    simp [hop, hpre, hm]

/-- Witness for C9: a concrete delete event with a pre-image triggers
exactly one Delete call carrying the serialized pre-image. -/
theorem c9_witness :
    (docDispatcherFunc (fun d => .ok (toString (repr d))) (fun _ => none) evDelete5).1 =
      [.delete (toString (repr (some [("name", "test_0")] : Option Doc)))] :=
  (c9_dispatcher_classification (fun d => .ok (toString (repr d))) (fun _ => none)
    evDelete5).2.2.2.1 rfl [("name", "test_0")] _ rfl rfl

/-- Witness for C1: a concrete cold run over two insert events leaves
exactly the second event's record in the checkpoint collection. -/
theorem c1_witness :
    (watchChangeStream saveFuncRepo deleteFuncRepo (List.map pureDispatch []) none
        ⟨[Except.ok evInsert0, Except.ok evInsert1], EndReason.cancelled⟩ []).1 =
      [deriveResumePoint evInsert1] :=
  c1_exactly_one_checkpoint [] none [] [evInsert0] evInsert1 (by decide) (by decide)
    (by decide) (Or.inl ⟨rfl, rfl⟩)

/-- Witness for C10: a concrete cold run over a single insert event leaves
exactly that event's record, and the step trace shows one save and no
delete. -/
theorem c10_witness :
    (watchChangeStream saveFuncRepo deleteFuncRepo (List.map pureDispatch []) none
        ⟨[Except.ok evInsert0], EndReason.cancelled⟩ []).1 = [deriveResumePoint evInsert0] ∧
    (watchStep (saveFuncTraced fun _ => none) (deleteFuncTraced fun _ => none)
        [dispatchTraced fun _ e => e] none none (.ok evInsert0) ⟨[], []⟩).1 =
      ⟨[deriveResumePoint evInsert0], [.save evInsert0.id true, .dispatch evInsert0.id]⟩ :=
  c10_cold_start_first_event [] (fun _ e => e) [] evInsert0 evInsert0 (by decide) (by decide)

end Mongowatch
